import Mathlib

/-!
Verification of src/go-go1.16.14/src/runtime/go_tls.h, the per-architecture
TLS-access header of the Go runtime.  The header is pure C-preprocessor
text: three independent `#ifdef GOARCH_*` blocks defining, per
architecture, the macros `get_tls(r)` (load the thread-local base register
into r), `g(r)` (the memory operand addressing the current-goroutine slot)
and, for arm only, the register alias `LR`.

We embed the preprocessor layer (which macros a given build configuration
defines and what token sequence each expands to) and a small machine
semantics for the emitted instructions (register file, thread-local base
register TLS, memory with an explicit mapped-address predicate so that
memory accesses can fault, and a flags word), and prove the spec claims
over that embedding.
-/

namespace GoTLS

/-- General-purpose registers of the x86 family as named by the Go
assembler, plus an escape constructor so the register set is not
artificially closed. -/
inductive Reg where
  | AX | BX | CX | DX | SI | DI | BP | SP
  | R8 | R9 | R10 | R11 | R12 | R13 | R14 | R15
  | other (n : Nat)
  deriving DecidableEq, Repr

/-- Operand size of a move: MOVQ moves 64 bits, MOVL moves 32 bits. -/
inductive MovSize where
  | q
  | l
  deriving DecidableEq, Repr

/-- Number of bits moved by each move size. -/
def MovSize.bits : MovSize → Nat
  | .q => 64
  | .l => 32

/-- A memory operand of the Go assembler in the shape the header emits:
displacement, base register, and whether the TLS pseudo-register appears
as the (scale-1) index.  In the form `0(r)(TLS*1)` the TLS index is a
marker telling the assembler the base register already holds the TLS
base; it contributes no further displacement to the effective address. -/
structure MemOperand where
  disp : Nat
  base : Reg
  tlsIndex : Bool
  scale : Nat
  deriving DecidableEq, Repr

/-- Source operand of a move: the TLS pseudo-register, a register, or a
memory operand. -/
inductive Src where
  | tls
  | reg (r : Reg)
  | mem (op : MemOperand)
  deriving DecidableEq, Repr

/-- Destination operand of a move: a register or a memory operand. -/
inductive Dst where
  | reg (r : Reg)
  | mem (op : MemOperand)
  deriving DecidableEq, Repr

/-- The instructions the header's macros expand to (and the loads/stores
their callers wrap around the `g(r)` operand): sized moves. -/
inductive Instr where
  | mov (sz : MovSize) (src : Src) (dst : Dst)
  deriving DecidableEq, Repr

/-- A build configuration: which of the three GOARCH_* preprocessor
symbols tested by the header are defined.  A real build defines exactly
one of them, but the header only ever tests each symbol with its own
`#ifdef`, so the three flags are independent here. -/
structure BuildConfig where
  goarch_arm : Bool
  goarch_amd64 : Bool
  goarch_386 : Bool
  deriving DecidableEq, Repr

/-- The three architecture tags the header mentions. -/
inductive Arch where
  | arm
  | amd64
  | i386
  deriving DecidableEq, Repr

/-- The build configuration selecting a single architecture tag. -/
def archConfig : Arch → BuildConfig
  | .arm => ⟨true, false, false⟩
  | .amd64 => ⟨false, true, false⟩
  | .i386 => ⟨false, false, true⟩

/-- Pointer width in bits of each architecture tag. -/
def archBits : Arch → Nat
  | .arm => 32
  | .amd64 => 64
  | .i386 => 32

/-- Expansion of the `LR` macro: defined as R14 only under GOARCH_arm
(lines 5-7 of the header); `none` means the macro is not defined. -/
def lrDef (c : BuildConfig) : Option Reg :=
  if c.goarch_arm then some Reg.R14 else none

/-- Expansion of `get_tls(r)`: under GOARCH_amd64 it is `MOVQ TLS, r`
(line 11), under GOARCH_386 it is `MOVL TLS, r` (line 17); under any
other configuration the macro is not defined. -/
def get_tls (c : BuildConfig) (r : Reg) : Option Instr :=
  if c.goarch_amd64 then some (.mov .q .tls (.reg r))
  else if c.goarch_386 then some (.mov .l .tls (.reg r))
  else none

/-- Expansion of `g(r)`: under GOARCH_amd64 and GOARCH_386 alike it is
the operand `0(r)(TLS*1)` (lines 12 and 18); under any other
configuration the macro is not defined. -/
def g (c : BuildConfig) (r : Reg) : Option MemOperand :=
  if c.goarch_amd64 then some ⟨0, r, true, 1⟩
  else if c.goarch_386 then some ⟨0, r, true, 1⟩
  else none

/-- Faults a memory-touching instruction can raise at runtime. -/
inductive Fault where
  | unmappedRead
  | unmappedWrite
  deriving DecidableEq, Repr

/-- State of one OS thread: register file, the thread-local base register
TLBR (the value the TLS pseudo-register reads as on this thread), memory
contents, the set of mapped addresses, and a flags word. -/
structure ThreadState where
  regs : Reg → Nat
  tlbr : Nat
  mem : Nat → Nat
  mapped : Nat → Bool
  flags : Nat

/-- Truncate a value to the width of a move. -/
def wmod (sz : MovSize) (v : Nat) : Nat := v % 2 ^ sz.bits

/-- Effective address of a memory operand: displacement plus base
register; a TLS index marker of the form (TLS*1) adds nothing. -/
def effAddr (op : MemOperand) (s : ThreadState) : Nat :=
  op.disp + s.regs op.base

/-- Read a source operand; a read through an unmapped address faults. -/
def readSrc (sz : MovSize) (s : ThreadState) : Src → Except Fault Nat
  | .tls => .ok (wmod sz s.tlbr)
  | .reg r => .ok (wmod sz (s.regs r))
  | .mem op =>
      if s.mapped (effAddr op s) then .ok (wmod sz (s.mem (effAddr op s)))
      else .error .unmappedRead

/-- Write a value to a destination operand; a write through an unmapped
address faults.  A move updates no flags. -/
def writeDst (sz : MovSize) (s : ThreadState) (v : Nat) :
    Dst → Except Fault ThreadState
  | .reg r => .ok { s with regs := Function.update s.regs r (wmod sz v) }
  | .mem op =>
      if s.mapped (effAddr op s) then
        .ok { s with mem := Function.update s.mem (effAddr op s) (wmod sz v) }
      else .error .unmappedWrite

/-- Execute one instruction on one thread. -/
def execInstr (s : ThreadState) : Instr → Except Fault ThreadState
  | .mov sz src dst =>
      match readSrc sz s src with
      | .ok v => writeDst sz s v dst
      | .error f => .error f

/-- Execute the same instruction n times in a row on one thread. -/
def execN (i : Instr) : Nat → ThreadState → Except Fault ThreadState
  | 0, s => .ok s
  | n + 1, s => (execInstr s i).bind (execN i n)

/-- A multi-thread machine: one ThreadState per thread id. -/
def Machine := Nat → ThreadState

/-- Run one instruction on thread t of a machine; only that thread's
state is read and only that thread's state is replaced. -/
def stepOn (m : Machine) (t : Nat) (i : Instr) : Except Fault Machine :=
  match execInstr (m t) i with
  | .ok s1 => .ok (fun u => if u = t then s1 else m u)
  | .error f => .error f

/-- Modelled from the spec: the build step that assembles a use of the
`get_tls` macro.  The assembler (cmd/asm of this repository, not under
src/) rejects at build time any source whose macros are undefined, so
assembling a `get_tls(r)` call site succeeds exactly when the header
defined the macro for the selected configuration, and otherwise the
build fails with a compile-time error and emits no code. -/
def assembleGetTlsUse (c : BuildConfig) (r : Reg) : Except Unit Instr :=
  match get_tls c r with
  | some i => .ok i
  | none => .error ()

/-- Result of one thread performing a TLS load MOV on a machine: only
that thread's destination register changes. -/
def tlsStep (sz : MovSize) (r : Reg) (m : Machine) (t : Nat) : Machine :=
  fun u =>
    if u = t then
      { m u with regs := Function.update (m u).regs r (wmod sz (m u).tlbr) }
    else m u

/-- Concrete thread state used to instantiate witness theorems. -/
def testState : ThreadState :=
  { regs := fun x => if x = Reg.DX then 7 else 0
    tlbr := 64
    mem := fun _ => 0
    mapped := fun _ => true
    flags := 0 }

theorem wmod_idem (sz : MovSize) (v : Nat) :
    wmod sz (wmod sz v) = wmod sz v :=
  Nat.mod_mod_of_dvd v dvd_rfl

theorem execInstr_tls_reg (sz : MovSize) (r : Reg) (s : ThreadState) :
    execInstr s (.mov sz .tls (.reg r)) =
      .ok { s with regs := Function.update s.regs r (wmod sz s.tlbr) } := by
  simp [execInstr, readSrc, writeDst, wmod_idem]

theorem stepOn_tls (sz : MovSize) (r : Reg) (m : Machine) (t : Nat) :
    stepOn m t (.mov sz .tls (.reg r)) = .ok (tlsStep sz r m t) := by
  simp only [stepOn, execInstr_tls_reg]
  congr 1
  funext u
  by_cases h : u = t
  · subst h; simp [tlsStep]
  · simp [tlsStep, h]

theorem execInstr_tls_reg_frame (sz : MovSize) (r : Reg) (s : ThreadState) :
    ∃ s1, execInstr s (.mov sz .tls (.reg r)) = .ok s1 ∧
      s1.mem = s.mem ∧ s1.mapped = s.mapped ∧ s1.tlbr = s.tlbr ∧
      s1.flags = s.flags ∧ ∀ x, x ≠ r → s1.regs x = s.regs x := by
  refine ⟨_, execInstr_tls_reg sz r s, rfl, rfl, rfl, rfl, fun x hx => ?_⟩
  simp [Function.update_noteq hx]

theorem execN_tls_frame (sz : MovSize) (r : Reg) (n : Nat) (s : ThreadState) :
    ∃ s1, execN (.mov sz .tls (.reg r)) n s = .ok s1 ∧
      s1.mem = s.mem ∧ s1.mapped = s.mapped ∧ s1.tlbr = s.tlbr ∧
      s1.flags = s.flags ∧ ∀ x, x ≠ r → s1.regs x = s.regs x := by
  induction n generalizing s with
  | zero => exact ⟨s, rfl, rfl, rfl, rfl, rfl, fun _ _ => rfl⟩
  | succ k ih =>
    obtain ⟨s1, h1, hm, hp, ht, hf, hr⟩ := execInstr_tls_reg_frame sz r s
    obtain ⟨s2, h2, hm2, hp2, ht2, hf2, hr2⟩ := ih s1
    refine ⟨s2, ?_, by rw [hm2, hm], by rw [hp2, hp], by rw [ht2, ht],
      by rw [hf2, hf], fun x hx => by rw [hr2 x hx, hr x hx]⟩
    simp only [execN, h1, Except.bind]
    exact h2

/-- C1: on each supported architecture tag (GOARCH_amd64, GOARCH_386),
executing the instruction emitted by get_tls(r) on a thread whose TLBR
holds the value V leaves register r equal to V. -/
theorem C1_get_tls_loads_tlbr (a : Arch) (ha : a = .amd64 ∨ a = .i386)
    (r : Reg) (s : ThreadState) (hv : s.tlbr < 2 ^ archBits a) :
    ∃ i s1, get_tls (archConfig a) r = some i ∧
      execInstr s i = .ok s1 ∧ s1.regs r = s.tlbr := by
  rcases ha with h | h <;> subst h <;>
    refine ⟨_, _, rfl, execInstr_tls_reg _ r s, ?_⟩ <;>
    simp only [Function.update_same] <;>
    exact Nat.mod_eq_of_lt hv

/-- C1 witness: amd64, register CX, a thread whose TLBR holds 64. -/
theorem C1_get_tls_loads_tlbr_witness :
    ∃ i s1, get_tls (archConfig .amd64) Reg.CX = some i ∧
      execInstr testState i = .ok s1 ∧ s1.regs Reg.CX = testState.tlbr :=
  C1_get_tls_loads_tlbr .amd64 (Or.inl rfl) Reg.CX testState (by decide)

/-- C2: on each supported architecture, the operand emitted by g(r) for a
register freshly loaded by get_tls addresses exactly TLBR + offset, where
the offset is the plain displacement of the operand, equals 0, and is the
same for every invocation within one build configuration. -/
theorem C2_g_addresses_tlbr_plus_offset (a : Arch)
    (ha : a = .amd64 ∨ a = .i386) (r : Reg) (s : ThreadState)
    (hv : s.tlbr < 2 ^ archBits a) :
    ∃ i op s1, get_tls (archConfig a) r = some i ∧
      g (archConfig a) r = some op ∧ execInstr s i = .ok s1 ∧
      op.disp = 0 ∧ effAddr op s1 = s.tlbr + op.disp ∧
      ∀ r1 r2, Option.map MemOperand.disp (g (archConfig a) r1) =
        Option.map MemOperand.disp (g (archConfig a) r2) := by
  rcases ha with h | h <;> subst h <;>
    refine ⟨_, _, _, rfl, rfl, execInstr_tls_reg _ r s, rfl, ?_,
      fun _ _ => rfl⟩ <;>
    simp only [effAddr, Function.update_same, Nat.zero_add, Nat.add_zero] <;>
    exact Nat.mod_eq_of_lt hv

/-- C2 witness: amd64, register CX, a thread whose TLBR holds 64. -/
theorem C2_g_addresses_tlbr_plus_offset_witness :
    ∃ i op s1, get_tls (archConfig .amd64) Reg.CX = some i ∧
      g (archConfig .amd64) Reg.CX = some op ∧
      execInstr testState i = .ok s1 ∧
      op.disp = 0 ∧ effAddr op s1 = testState.tlbr + op.disp ∧
      ∀ r1 r2, Option.map MemOperand.disp (g (archConfig .amd64) r1) =
        Option.map MemOperand.disp (g (archConfig .amd64) r2) :=
  C2_g_addresses_tlbr_plus_offset .amd64 (Or.inl rfl) Reg.CX testState
    (by decide)

/-- C3: a build defining none of GOARCH_arm, GOARCH_amd64 and GOARCH_386
leaves the get_tls macro undefined, so assembling a use of it fails at
build time with an error and no instruction is ever emitted for runtime
execution. -/
theorem C3_unsupported_arch_fails_at_build (c : BuildConfig) (r : Reg)
    (_h1 : c.goarch_arm = false) (h2 : c.goarch_amd64 = false)
    (h3 : c.goarch_386 = false) :
    assembleGetTlsUse c r = .error () ∧ get_tls c r = none := by
  simp [assembleGetTlsUse, get_tls, h2, h3]

/-- C3 witness: the build configuration defining no GOARCH symbol. -/
theorem C3_unsupported_arch_fails_at_build_witness :
    assembleGetTlsUse ⟨false, false, false⟩ Reg.CX = .error () ∧
      get_tls ⟨false, false, false⟩ Reg.CX = none :=
  C3_unsupported_arch_fails_at_build ⟨false, false, false⟩ Reg.CX rfl rfl rfl


theorem roundtrip_core (sz : MovSize) (r rsrc rdst : Reg) (hrr : rsrc ≠ r)
    (s : ThreadState) (P : Nat) (hvw : wmod sz s.tlbr = s.tlbr)
    (hPw : wmod sz P = P) (hsrc : s.regs rsrc = P)
    (hmap : s.mapped s.tlbr = true) :
    ∃ s1 s2 s3, execInstr s (.mov sz .tls (.reg r)) = .ok s1 ∧
      execInstr s1 (.mov sz (.reg rsrc) (.mem ⟨0, r, true, 1⟩)) = .ok s2 ∧
      execInstr s2 (.mov sz (.mem ⟨0, r, true, 1⟩) (.reg rdst)) = .ok s3 ∧
      s3.regs rdst = P := by
  have h1 : execInstr s (.mov sz .tls (.reg r)) =
      .ok { s with regs := Function.update s.regs r s.tlbr } := by
    rw [execInstr_tls_reg, hvw]
  have h2 : execInstr { s with regs := Function.update s.regs r s.tlbr }
      (.mov sz (.reg rsrc) (.mem ⟨0, r, true, 1⟩)) =
      .ok { s with regs := Function.update s.regs r s.tlbr,
                   mem := Function.update s.mem s.tlbr P } := by
    simp [execInstr, readSrc, writeDst, effAddr, Function.update_same,
      Function.update_noteq hrr, hsrc, hmap, wmod_idem, hPw]
  have h3 : execInstr
      { s with regs := Function.update s.regs r s.tlbr,
               mem := Function.update s.mem s.tlbr P }
      (.mov sz (.mem ⟨0, r, true, 1⟩) (.reg rdst)) =
      .ok { s with
            regs := Function.update (Function.update s.regs r s.tlbr) rdst P,
            mem := Function.update s.mem s.tlbr P } := by
    simp only [execInstr, readSrc, writeDst, effAddr, Function.update_same,
      hmap, Nat.zero_add, if_true]
    congr 2
    simp [Function.update_apply, hPw, wmod_idem]
  exact ⟨_, _, _, h1, h2, h3, by simp [Function.update_same]⟩

/-- C4: on each supported architecture, for every thread state and every
pointer-sized value P, storing P through the operand g(r) (with r freshly
loaded by get_tls) and then loading through the same addressing on the
same thread yields P back unchanged. -/
theorem C4_slot_write_read_roundtrip (a : Arch)
    (ha : a = .amd64 ∨ a = .i386) (sz : MovSize)
    (hsz : sz.bits = archBits a) (r rsrc rdst : Reg) (hrr : rsrc ≠ r)
    (s : ThreadState) (P : Nat) (hv : s.tlbr < 2 ^ archBits a)
    (hP : P < 2 ^ archBits a) (hsrc : s.regs rsrc = P)
    (hmap : s.mapped s.tlbr = true) :
    ∃ i op s1 s2 s3,
      get_tls (archConfig a) r = some i ∧
      g (archConfig a) r = some op ∧
      execInstr s i = .ok s1 ∧
      execInstr s1 (.mov sz (.reg rsrc) (.mem op)) = .ok s2 ∧
      execInstr s2 (.mov sz (.mem op) (.reg rdst)) = .ok s3 ∧
      s3.regs rdst = P := by
  have hvw : wmod sz s.tlbr = s.tlbr := by
    rw [wmod, hsz]; exact Nat.mod_eq_of_lt hv
  have hPw : wmod sz P = P := by
    rw [wmod, hsz]; exact Nat.mod_eq_of_lt hP
  obtain ⟨s1, s2, s3, h1, h2, h3, hres⟩ :=
    roundtrip_core sz r rsrc rdst hrr s P hvw hPw hsrc hmap
  rcases ha with h | h <;> subst h <;> cases sz
  · exact ⟨_, _, s1, s2, s3, rfl, rfl, h1, h2, h3, hres⟩
  · exact absurd hsz (by decide)
  · exact absurd hsz (by decide)
  · exact ⟨_, _, s1, s2, s3, rfl, rfl, h1, h2, h3, hres⟩

/-- C4 witness: amd64, 64-bit moves, r = CX, source DX holding 7,
destination AX, the concrete test state, P = 7. -/
theorem C4_slot_write_read_roundtrip_witness :
    ∃ i op s1 s2 s3,
      get_tls (archConfig .amd64) Reg.CX = some i ∧
      g (archConfig .amd64) Reg.CX = some op ∧
      execInstr testState i = .ok s1 ∧
      execInstr s1 (.mov .q (.reg Reg.DX) (.mem op)) = .ok s2 ∧
      execInstr s2 (.mov .q (.mem op) (.reg Reg.AX)) = .ok s3 ∧
      s3.regs Reg.AX = 7 :=
  C4_slot_write_read_roundtrip .amd64 (Or.inl rfl) .q rfl Reg.CX Reg.DX
    Reg.AX (by decide) testState 7 (by decide) (by decide) (by decide)
    (by decide)

/-- C5: the result of get_tls depends only on the invoking thread's own
TLBR: for two distinct threads whose TLBR values are V1 and V2 with
V1 differing from V2, running the get_tls instruction on each thread in
either interleaving order leaves each thread's destination register equal
to its own TLBR value, and both orders produce the same machine. -/
theorem C5_thread_isolation_no_cross_read (a : Arch)
    (ha : a = .amd64 ∨ a = .i386) (r : Reg) (m : Machine) (t1 t2 : Nat)
    (ht : t1 ≠ t2) (hne : (m t1).tlbr ≠ (m t2).tlbr)
    (h1 : (m t1).tlbr < 2 ^ archBits a) (h2 : (m t2).tlbr < 2 ^ archBits a)
    (i : Instr) (hi : get_tls (archConfig a) r = some i) :
    ∃ m12 m21,
      (∃ mA, stepOn m t1 i = .ok mA ∧ stepOn mA t2 i = .ok m12) ∧
      (∃ mB, stepOn m t2 i = .ok mB ∧ stepOn mB t1 i = .ok m21) ∧
      (m12 t1).regs r = (m t1).tlbr ∧ (m12 t2).regs r = (m t2).tlbr ∧
      (m21 t1).regs r = (m t1).tlbr ∧ (m21 t2).regs r = (m t2).tlbr ∧
      m12 = m21 := by
  rcases ha with h | h <;> subst h <;>
    simp [get_tls, archConfig] at hi <;> subst hi <;>
    [have e1 : wmod .q (m t1).tlbr = (m t1).tlbr := Nat.mod_eq_of_lt h1;
     have e1 : wmod .l (m t1).tlbr = (m t1).tlbr := Nat.mod_eq_of_lt h1] <;>
    [have e2 : wmod .q (m t2).tlbr = (m t2).tlbr := Nat.mod_eq_of_lt h2;
     have e2 : wmod .l (m t2).tlbr = (m t2).tlbr := Nat.mod_eq_of_lt h2] <;>
    refine ⟨tlsStep _ r (tlsStep _ r m t1) t2,
      tlsStep _ r (tlsStep _ r m t2) t1,
      ⟨_, stepOn_tls _ r m t1, stepOn_tls _ r _ t2⟩,
      ⟨_, stepOn_tls _ r m t2, stepOn_tls _ r _ t1⟩, ?_, ?_, ?_, ?_, ?_⟩ <;>
    first
      | simp [tlsStep, ht, Ne.symm ht, e1, e2]
      | (funext u
         by_cases hu1 : u = t1
         · subst hu1; simp [tlsStep, ht, Ne.symm ht]
         · by_cases hu2 : u = t2
           · subst hu2; simp [tlsStep, ht, Ne.symm ht]
           · simp [tlsStep, hu1, hu2])


/-- Second concrete thread, with a different TLBR value, for the
thread-isolation witness. -/
def testMachine : Machine :=
  fun t => if t = 0 then testState else { testState with tlbr := 32 }

/-- C5 witness: amd64, register CX, threads 0 and 1 whose TLBR values
are 64 and 32. -/
theorem C5_thread_isolation_no_cross_read_witness :
    ∃ m12 m21,
      (∃ mA, stepOn testMachine 0 (.mov .q .tls (.reg Reg.CX)) = .ok mA ∧
        stepOn mA 1 (.mov .q .tls (.reg Reg.CX)) = .ok m12) ∧
      (∃ mB, stepOn testMachine 1 (.mov .q .tls (.reg Reg.CX)) = .ok mB ∧
        stepOn mB 0 (.mov .q .tls (.reg Reg.CX)) = .ok m21) ∧
      (m12 0).regs Reg.CX = (testMachine 0).tlbr ∧
      (m12 1).regs Reg.CX = (testMachine 1).tlbr ∧
      (m21 0).regs Reg.CX = (testMachine 0).tlbr ∧
      (m21 1).regs Reg.CX = (testMachine 1).tlbr ∧
      m12 = m21 :=
  C5_thread_isolation_no_cross_read .amd64 (Or.inl rfl) Reg.CX testMachine
    0 1 (by decide) (by decide) (by decide) (by decide)
    (.mov .q .tls (.reg Reg.CX)) rfl

/-- C6: on each supported architecture, executing the instruction emitted
by get_tls(r) any number of times in a row writes no memory location and
changes no thread state other than the destination register r; in
particular the flags word is untouched, since a MOV affects no flags in
this semantics. -/
theorem C6_get_tls_writes_no_memory (a : Arch)
    (ha : a = .amd64 ∨ a = .i386) (r : Reg) (i : Instr)
    (hi : get_tls (archConfig a) r = some i) (n : Nat) (s : ThreadState) :
    ∃ s1, execN i n s = .ok s1 ∧ s1.mem = s.mem ∧ s1.mapped = s.mapped ∧
      s1.tlbr = s.tlbr ∧ s1.flags = s.flags ∧
      ∀ x, x ≠ r → s1.regs x = s.regs x := by
  rcases ha with h | h <;> subst h <;>
    simp [get_tls, archConfig] at hi <;> subst hi <;>
    exact execN_tls_frame _ r n s

/-- C6 witness: amd64, register CX, three repetitions, the concrete test
state. -/
theorem C6_get_tls_writes_no_memory_witness :
    ∃ s1, execN (.mov .q .tls (.reg Reg.CX)) 3 testState = .ok s1 ∧
      s1.mem = testState.mem ∧ s1.mapped = testState.mapped ∧
      s1.tlbr = testState.tlbr ∧ s1.flags = testState.flags ∧
      ∀ x, x ≠ Reg.CX → s1.regs x = testState.regs x :=
  C6_get_tls_writes_no_memory .amd64 (Or.inl rfl) Reg.CX
    (.mov .q .tls (.reg Reg.CX)) rfl 3 testState

/-- C7: on each supported architecture, get_tls and g are defined and
total at build time, and the emitted load never faults at runtime: in a
semantics where memory-touching instructions can fault on unmapped
addresses, executing the get_tls instruction succeeds on every thread
state, and the address computation of the g operand is a total function
of the resulting state. -/
theorem C7_no_runtime_failure (a : Arch) (ha : a = .amd64 ∨ a = .i386)
    (r : Reg) (s : ThreadState) :
    ∃ i op, get_tls (archConfig a) r = some i ∧
      g (archConfig a) r = some op ∧
      ∃ s1, execInstr s i = .ok s1 ∧ effAddr op s1 = op.disp + s1.regs r := by
  rcases ha with h | h <;> subst h <;>
    exact ⟨_, _, rfl, rfl, _, execInstr_tls_reg _ r s, rfl⟩

/-- C7 witness: amd64, register CX, the concrete test state. -/
theorem C7_no_runtime_failure_witness :
    ∃ i op, get_tls (archConfig .amd64) Reg.CX = some i ∧
      g (archConfig .amd64) Reg.CX = some op ∧
      ∃ s1, execInstr testState i = .ok s1 ∧
        effAddr op s1 = op.disp + s1.regs Reg.CX :=
  C7_no_runtime_failure .amd64 (Or.inl rfl) Reg.CX testState

/-- C8: the accessors get_tls and g are defined for exactly the two tags
GOARCH_amd64 and GOARCH_386; under GOARCH_arm neither is defined and the
header defines only the register alias LR = R14, which in turn is absent
under the other two tags. -/
theorem C8_accessors_defined_exactly_amd64_386 (r : Reg) :
    (get_tls (archConfig .amd64) r).isSome = true ∧
    (get_tls (archConfig .i386) r).isSome = true ∧
    (g (archConfig .amd64) r).isSome = true ∧
    (g (archConfig .i386) r).isSome = true ∧
    get_tls (archConfig .arm) r = none ∧
    g (archConfig .arm) r = none ∧
    lrDef (archConfig .arm) = some Reg.R14 ∧
    lrDef (archConfig .amd64) = none ∧
    lrDef (archConfig .i386) = none :=
  ⟨rfl, rfl, rfl, rfl, rfl, rfl, rfl, rfl, rfl⟩

/-- C9: on both architectures defining the accessor, g(r) expands to the
indexed operand 0(r)(TLS*1): displacement exactly 0, base register r,
TLS index present at scale 1, identical for amd64 and 386. -/
theorem C9_g_operand_disp_zero_tls_indexed (r : Reg) :
    g (archConfig .amd64) r =
      some { disp := 0, base := r, tlsIndex := true, scale := 1 } ∧
    g (archConfig .i386) r =
      some { disp := 0, base := r, tlsIndex := true, scale := 1 } ∧
    g (archConfig .amd64) r = g (archConfig .i386) r :=
  ⟨rfl, rfl, rfl⟩

/-- C10: the load emitted by get_tls matches the architecture pointer
width: MOVQ (64 bits) on amd64 and MOVL (32 bits) on 386, so a TLBR value
that fits the architecture pointer width is copied into the destination
register without truncation. -/
theorem C10_load_width_matches_pointer_width (r : Reg)
    (sq sl : ThreadState) (hq : sq.tlbr < 2 ^ archBits .amd64)
    (hl : sl.tlbr < 2 ^ archBits .i386) :
    get_tls (archConfig .amd64) r = some (.mov .q .tls (.reg r)) ∧
    MovSize.q.bits = archBits .amd64 ∧
    get_tls (archConfig .i386) r = some (.mov .l .tls (.reg r)) ∧
    MovSize.l.bits = archBits .i386 ∧
    (∃ s1, execInstr sq (.mov .q .tls (.reg r)) = .ok s1 ∧
      s1.regs r = sq.tlbr) ∧
    (∃ s1, execInstr sl (.mov .l .tls (.reg r)) = .ok s1 ∧
      s1.regs r = sl.tlbr) := by
  refine ⟨rfl, rfl, rfl, rfl,
    ⟨_, execInstr_tls_reg .q r sq, ?_⟩, ⟨_, execInstr_tls_reg .l r sl, ?_⟩⟩ <;>
    simp only [Function.update_same] <;>
    first
      | exact Nat.mod_eq_of_lt hq
      | exact Nat.mod_eq_of_lt hl

/-- C10 witness: register CX, the concrete test state for both widths. -/
theorem C10_load_width_matches_pointer_width_witness :
    get_tls (archConfig .amd64) Reg.CX =
      some (.mov .q .tls (.reg Reg.CX)) ∧
    MovSize.q.bits = archBits .amd64 ∧
    get_tls (archConfig .i386) Reg.CX =
      some (.mov .l .tls (.reg Reg.CX)) ∧
    MovSize.l.bits = archBits .i386 ∧
    (∃ s1, execInstr testState (.mov .q .tls (.reg Reg.CX)) = .ok s1 ∧
      s1.regs Reg.CX = testState.tlbr) ∧
    (∃ s1, execInstr testState (.mov .l .tls (.reg Reg.CX)) = .ok s1 ∧
      s1.regs Reg.CX = testState.tlbr) :=
  C10_load_width_matches_pointer_width Reg.CX testState testState
    (by decide) (by decide)

end GoTLS
